import Mathlib

/-!
Verification of the numeric-literal and interval-notation components of the
drjutils repository (src/drjutils/common/numbers.py,
src/drjutils/common/intervals.py, and the draft modules under
src/drjutils/common/types/strings/).

The Python code is regex-driven.  We embed it shallowly:

* a small regular-expression AST (RE) mirroring the constructs that occur in
  the source patterns (character classes, concatenation, ordered alternation,
  greedy star, capturing groups, lookahead);
* a backtracking matcher with Python's leftmost / greedy semantics, in two
  variants: runB (acceptance only) and runG (acceptance plus captures);
* each pattern string of the source is transcribed node-by-node into an RE
  value whose shape follows the pattern text;
* the Python functions (to_number, format_number, check_interval_str_match,
  to_interval, format_interval, ...) are transcribed into Lean functions over
  an explicit Python-error type, with machine floats modelled by exact
  integer rounding to 53-bit precision (round half to even), as CPython's
  float(int) does.

Caveats of the embedding, stated once here:

* Python character classes are modelled over ASCII (the inputs of interest
  are ASCII);
* the dollar anchor is modelled as end-of-string (Python also lets it match
  before a final newline; no input considered here contains a newline);
* IGNORECASE patterns are modelled by letting each letter atom (and the
  hexadecimal-digit class) of the pattern match both cases;
* numbers.py never finishes importing in Python, because the module-level
  re.compile of flt_rgx raises (see the compile-validity model below).  The
  function bodies are modelled as they are written; every branch that would
  have to consult the never-created flt_rgx object is modelled by the
  distinguished error regexCompileError, and no theorem relies on anything
  about such a result except that it is not a success.
-/

namespace Drj

/-! ### Character classes (ASCII model of Python's classes) -/

/-- Python regex class \d (ASCII model): the characters 0-9. -/
def isDigitC (c : Char) : Bool := c.isDigit

/-- Python regex class \s (ASCII model): space, tab, newline, carriage
return, form feed, vertical tab. -/
def isSpaceC (c : Char) : Bool :=
  c == ' ' || c == '\t' || c == '\n' || c == '\r' || c == '\x0b' || c == '\x0c'

/-- The class [+-]. -/
def isSignC (c : Char) : Bool := c == '+' || c == '-'

/-- The class [eE]. -/
def isEC (c : Char) : Bool := c == 'e' || c == 'E'

/-- The class [\[(] (left bracket of an interval). -/
def isLBr (c : Char) : Bool := c == '[' || c == '('

/-- The class [\])] (right bracket of an interval). -/
def isRBr (c : Char) : Bool := c == ']' || c == ')'

/-- The class [1-9]. -/
def isNZDigitC (c : Char) : Bool := '1' ≤ c && c ≤ '9'

/-- The class [\da-f] (hexadecimal digit, lowercase model). -/
def isHexC (c : Char) : Bool := c.isDigit || ('a' ≤ c && c ≤ 'f')

/-- The class [01]. -/
def isBinC (c : Char) : Bool := c == '0' || c == '1'

/-- The class [0-7]. -/
def isOctC (c : Char) : Bool := '0' ≤ c && c ≤ '7'

/-! ### Regular-expression AST

One constructor per construct appearing in the source patterns.  A literal
character is a singleton class.  Alternation is ordered (Python tries the
left alternative first) and star is greedy, which the matcher below
implements. -/

inductive RE where
  | eps
  | cls (p : Char → Bool)
  | cat (a b : RE)
  | alt (a b : RE)
  | star (a : RE)
  | grp (i : Nat) (a : RE)
  | look (a : RE)

namespace RE

/-- A literal character, as the singleton class. -/
def chr (c : Char) : RE := .cls (fun d => d == c)

/-- The greedy option a?, i.e. (a|eps) with the left branch preferred. -/
def opt (a : RE) : RE := .alt a .eps

/-- The quantifier a+ as a followed by a*. -/
def rep1 (a : RE) : RE := .cat a (.star a)

/-- A literal string, as a concatenation of literal characters. -/
def strLit (s : String) : RE := s.data.foldr (fun c r => .cat (.chr c) r) .eps

/-- Size measure used for termination of the matcher. -/
def size : RE → Nat
  | eps => 1
  | cls _ => 1
  | cat a b => a.size + b.size + 1
  | alt a b => a.size + b.size + 1
  | star a => a.size + 1
  | grp _ a => a.size + 1
  | look a => a.size + 1

end RE

/-! ### The matcher

CPS backtracking with fuel spent at every recursion step, so that the
definition is structurally recursive and the kernel can evaluate it.  A
star iteration is required to consume at least one character (Python's
engine likewise never repeats an empty star iteration; dropping empty
iterations does not change the matched language).  The fuel chosen in
fuelFor below is ample for the patterns and inputs considered here, and
the soundness theorem holds for every fuel value. -/

/-- Acceptance-only matcher.  runB f r s k is true iff some prefix t of s
matches r (with Python's preference order) and k accepts the rest.  The
recursion is structural on the fuel so that the kernel can evaluate it. -/
def runB : Nat → RE → List Char → (List Char → Bool) → Bool
  | 0, _, _, _ => false
  | _ + 1, .eps, s, k => k s
  | _ + 1, .cls _, [], _ => false
  | _ + 1, .cls p, c :: t, k => p c && k t
  | f + 1, .cat a b, s, k => runB f a s (fun t => runB f b t k)
  | f + 1, .alt a b, s, k => runB f a s k || runB f b s k
  | f + 1, .grp _ a, s, k => runB f a s k
  | f + 1, .look a, s, k => runB f a s (fun _ => true) && k s
  | f + 1, .star a, s, k =>
      runB f a s (fun t => if t.length < s.length then runB f (.star a) t k else false) || k s

/-- Capture environment: group index to matched character span. -/
def Caps : Type := Nat → Option (List Char)

/-- The empty capture environment. -/
def capsEmpty : Caps := fun _ => none

/-- Record the span of one group. -/
def capsSet (g : Caps) (i : Nat) (v : List Char) : Caps :=
  fun j => if j = i then some v else g j

/-- Capturing matcher, same search order as runB; the result carries the
final capture environment of the first (Python-order) full match. -/
def runG : Nat → RE → List Char → Caps → (List Char → Caps → Option Caps) → Option Caps
  | 0, _, _, _, _ => none
  | _ + 1, .eps, s, g, k => k s g
  | _ + 1, .cls _, [], _, _ => none
  | _ + 1, .cls p, c :: t, g, k => if p c then k t g else none
  | f + 1, .cat a b, s, g, k => runG f a s g (fun t g' => runG f b t g' k)
  | f + 1, .alt a b, s, g, k => (runG f a s g k) <|> (runG f b s g k)
  | f + 1, .grp i a, s, g, k =>
      runG f a s g (fun t g' => k t (capsSet g' i (s.take (s.length - t.length))))
  | f + 1, .look a, s, g, k =>
      match runG f a s g (fun _ g' => some g') with
      | some _ => k s g
      | none => none
  | f + 1, .star a, s, g, k =>
      (runG f a s g
        (fun t g' => if t.length < s.length then runG f (.star a) t g' k else none)) <|> k s g

/-- Fuel that is ample for the patterns and inputs considered: the call
depth of the matcher is bounded by the pattern size plus, per star
iteration (each of which consumes at least one character), the star's
size. -/
def fuelFor (r : RE) (s : String) : Nat := (s.length + 1) * (r.size + 1)

/-- Model of Pattern.fullmatch for a capture-free check (used where the
Python code only tests that a match exists). -/
def reAccept (r : RE) (s : String) : Bool :=
  runB (fuelFor r s) r s.data (fun t => t.isEmpty)

/-- Model of Pattern.fullmatch returning the capture environment. -/
def reFullmatch (r : RE) (s : String) : Option Caps :=
  runG (fuelFor r s) r s.data capsEmpty
    (fun t g => if t.isEmpty then some g else none)

/-! ### Match semantics

SMat r l says that the span l is matched (exactly) by r.  Lookahead is
modelled lossily as a zero-width success: this keeps SMat compositional and
is all the soundness consumers below need (the patterns they inspect are
lookahead-free). -/

inductive SMat : RE → List Char → Prop where
  | eps : SMat .eps []
  | cls {p : Char → Bool} {c : Char} : p c = true → SMat (.cls p) [c]
  | cat {a b t u} : SMat a t → SMat b u → SMat (.cat a b) (t ++ u)
  | altL {a b t} : SMat a t → SMat (.alt a b) t
  | altR {a b t} : SMat b t → SMat (.alt a b) t
  | starNil {a} : SMat (.star a) []
  | starCons {a t u} : SMat a t → t ≠ [] → SMat (.star a) u → SMat (.star a) (t ++ u)
  | grp {i a t} : SMat a t → SMat (.grp i a) t
  | look {a} : SMat (.look a) []

/-! ### Pattern transcriptions: numbers.py

The three number grammars that intervals.py pulls in from numbers.py
(num_opl_rgx_str, num_opt_rgx_str, num_rlx_rgx_str), transcribed
node-by-node. -/

/-- Shared pieces. -/
def sgnOpt : RE := .opt (.cls isSignC)

/-- One or more digits. -/
def digits1 : RE := .rep1 (.cls isDigitC)

/-- Zero or more digits. -/
def digits0 : RE := .star (.cls isDigitC)

/-- A literal dot. -/
def dotC : RE := .chr '.'

/-- The optional exponent (?:[eE][+-]?\d+)? shared by the number grammars. -/
def expOpt : RE := .opt (.cat (.cls isEC) (.cat sgnOpt digits1))

/-- num_opl_rgx_str = [+-]?\d*\.?\d+(?:[eE][+-]?\d+)? (cannot end in a dot). -/
def num_opl_rgx : RE :=
  .cat sgnOpt (.cat digits0 (.cat (.opt dotC) (.cat digits1 expOpt)))

/-- num_opt_rgx_str = [+-]?\d+\.?\d*(?:[eE][+-]?\d+)? (cannot start with a dot). -/
def num_opt_rgx : RE :=
  .cat sgnOpt (.cat digits1 (.cat (.opt dotC) (.cat digits0 expOpt)))

/-- num_rlx_rgx_str = [+-]?(?:\d*\.?\d+|\d+\.\d*)(?:[eE][+-]?\d+)? . -/
def num_rlx_rgx : RE :=
  .cat sgnOpt
    (.cat (.alt (.cat digits0 (.cat (.opt dotC) digits1))
                (.cat digits1 (.cat dotC digits0)))
      expOpt)

/-! ### Pattern transcription: intervals.py interval_rgx

Source (intervals.py lines 41-77):
  _invl_rlx_spc_rgx_str = ({num_opl_rgx_str})\.\.({num_opt_rgx_str})
  _invl_sct_spc_rgx_str = ({num_rlx_rgx_str})\s+\.\.\s+({num_rlx_rgx_str})
  interval_rgx_str = ([\[(])?\s*(?:rlx|sct)\s*([\])])?
  interval_rgx = compile(^\s* interval_rgx_str \s*$)
Regex capture groups, in order of the opening parentheses:
  1 left bracket, 2 min (no-space form), 3 max (no-space form),
  4 min (spaced form), 5 max (spaced form), 6 right bracket. -/

/-- Zero or more whitespace characters, \s* . -/
def wsStar : RE := .star (.cls isSpaceC)

/-- One or more whitespace characters, \s+ . -/
def wsPlus : RE := .rep1 (.cls isSpaceC)

/-- The two-dot ellipsis \.\. . -/
def ddot : RE := .cat dotC dotC

/-- The no-space interval core ({num_opl})\.\.({num_opt}), groups 2 and 3. -/
def invl_rlx_spc : RE := .cat (.grp 2 num_opl_rgx) (.cat ddot (.grp 3 num_opt_rgx))

/-- The spaced interval core ({num_rlx})\s+\.\.\s+({num_rlx}), groups 4 and 5. -/
def invl_sct_spc : RE :=
  .cat (.grp 4 num_rlx_rgx) (.cat wsPlus (.cat ddot (.cat wsPlus (.grp 5 num_rlx_rgx))))

/-- The full anchored interval pattern ^\s*([\[(])?\s*(?:...|...)\s*([\])])?\s*$ . -/
def interval_rgx : RE :=
  .cat wsStar
    (.cat (.opt (.grp 1 (.cls isLBr)))
      (.cat wsStar
        (.cat (.alt invl_rlx_spc invl_sct_spc)
          (.cat wsStar
            (.cat (.opt (.grp 6 (.cls isRBr))) wsStar)))))

/-! ### Pattern transcriptions: d_ints.py (draft module)

INT_RGX (d_ints.py line 697):
  ^\s*[+-]?(?:\d+|0b[01]+|0x[\da-f]+|0o[0-7]+)\s*$   with IGNORECASE
REAL_RGX (d_ints.py line 1073):
  ^\s*[+-]?(?:(?:\d+\.\d*|\.\d+|\d+(?=e))(?:e[+-]?\d+)?|inf(?:inity)?|nan)\s*$
  with IGNORECASE.
IGNORECASE is modelled by letting every letter atom of the pattern match
both its cases (the patterns are ASCII). -/

/-- A letter atom under IGNORECASE: matches the letter and its other case. -/
def chrCI (c : Char) : RE := .cls (fun d => d == c || d == c.toUpper)

/-- A letter word under IGNORECASE, character-wise. -/
def strCI (s : String) : RE := s.data.foldr (fun c r => .cat (chrCI c) r) .eps

/-- The class [\da-f] under IGNORECASE. -/
def isHexCI (c : Char) : Bool := isHexC c || ('A' ≤ c && c ≤ 'F')

/-- 0b[01]+ (IGNORECASE). -/
def intBinMag : RE := .cat (.chr '0') (.cat (chrCI 'b') (.rep1 (.cls isBinC)))

/-- 0x[\da-f]+ (IGNORECASE). -/
def intHexMag : RE := .cat (.chr '0') (.cat (chrCI 'x') (.rep1 (.cls isHexCI)))

/-- 0o[0-7]+ (IGNORECASE). -/
def intOctMag : RE := .cat (.chr '0') (.cat (chrCI 'o') (.rep1 (.cls isOctC)))

/-- The body of INT_RGX: \s*[+-]?(?:\d+|0b[01]+|0x[\da-f]+|0o[0-7]+)\s* . -/
def INT_RGX_dints : RE :=
  .cat wsStar
    (.cat sgnOpt
      (.cat (.alt digits1 (.alt intBinMag (.alt intHexMag intOctMag))) wsStar))

/-- Acceptance by d_ints.py INT_RGX (fullmatch, IGNORECASE). -/
def int_rgx_dints_accept (s : String) : Bool := reAccept INT_RGX_dints s

/-- The real-number magnitude of REAL_RXS:
(?:\d+\.\d*|\.\d+|\d+(?=e))(?:e[+-]?\d+)? . -/
def realMagDints : RE :=
  .cat (.alt (.cat digits1 (.cat dotC digits0))
          (.alt (.cat dotC digits1)
            (.cat digits1 (.look (chrCI 'e')))))
    (.opt (.cat (chrCI 'e') (.cat sgnOpt digits1)))

/-- inf(?:inity)? (IGNORECASE). -/
def infDints : RE := .cat (strCI "inf") (.opt (strCI "inity"))

/-- The body of REAL_RGX:
\s*[+-]?(?:(?:\d+\.\d*|\.\d+|\d+(?=e))(?:e[+-]?\d+)?|inf(?:inity)?|nan)\s* . -/
def REAL_RGX_dints : RE :=
  .cat wsStar
    (.cat sgnOpt
      (.cat (.alt realMagDints (.alt infDints (strCI "nan"))) wsStar))

/-- Acceptance by d_ints.py REAL_RGX (fullmatch, IGNORECASE). -/
def real_rgx_dints_accept (s : String) : Bool := reAccept REAL_RGX_dints s

/-! ### Python error values and integer primitives -/

/-- The Python exceptions that the modelled code can raise.
regexCompileError stands for any execution that would have to touch the
flt_rgx / flt_sct_rgx pattern objects of numbers.py: their module-level
re.compile raises at import (claim C1), so such a state is unreachable in
Python; no theorem below uses anything about this value except that it is
not a success. -/
inductive PyErr where
  | valueError (msg : String)
  | typeError
  | overflowError
  | regexCompileError
deriving DecidableEq, Repr

/-- Equality of modelled Python results is decidable. -/
instance {ε α : Type} [DecidableEq ε] [DecidableEq α] : DecidableEq (Except ε α) := fun x y =>
  match x, y with
  | .ok a, .ok b => decidable_of_iff (a = b) (by simp)
  | .error e, .error e' => decidable_of_iff (e = e') (by simp)
  | .ok _, .error _ => .isFalse (by simp)
  | .error _, .ok _ => .isFalse (by simp)

/-- Hand-compiled acceptance test for int_rgx = ^([+-]?\d+)$ from numbers.py:
an optional sign followed by one or more digits, matching the whole string. -/
def int_rgx_match (s : String) : Bool :=
  let body := match s.data with
    | c :: t => if isSignC c then t else s.data
    | [] => s.data
  !body.isEmpty && body.all isDigitC

/-- Value of a list of decimal digit characters, most significant first. -/
def parseNatDigits (l : List Char) : ℕ :=
  l.foldl (fun a c => 10 * a + (c.toNat - 48)) 0

/-- Model of Python int(s) on strings of the shape [+-]?\d+ : a leading
sign is stripped and the digit characters are read in base 10. -/
def pyParseInt (s : String) : ℤ :=
  if s.data.head? = some '-' then -(parseNatDigits s.data.tail : ℤ)
  else if s.data.head? = some '+' then (parseNatDigits s.data.tail : ℤ)
  else (parseNatDigits s.data : ℤ)

/-- Decimal digits of m, least significant first, with explicit fuel so the
kernel can evaluate it (equals Nat.digits 10 m when the fuel suffices; see
natToDigitsRev_eq_digits). -/
def natToDigitsRev : Nat → Nat → List Nat
  | 0, _ => []
  | _ + 1, 0 => []
  | f + 1, m => m % 10 :: natToDigitsRev f (m / 10)

/-- Decimal digit characters of m, most significant first ("0" for zero). -/
def natDigitsStr (m : ℕ) : List Char :=
  if m = 0 then ['0'] else (natToDigitsRev m m).reverse.map (fun d => Char.ofNat (48 + d))

/-- Model of Python str(n) for an int n. -/
def pyStrInt (n : ℤ) : String :=
  ⟨(if n < 0 then ['-'] else []) ++ natDigitsStr n.natAbs⟩

/-! ### Model of CPython float(int) and of numbers.py format_number -/

/-- Base-2 logarithm with explicit fuel so the kernel can evaluate it
(equals Nat.log2 when the fuel suffices; see log2fuel_eq). -/
def log2fuel : Nat → Nat → Nat
  | 0, _ => 0
  | f + 1, m => if m ≤ 1 then 0 else log2fuel f (m / 2) + 1

/-- Round a natural number to 53 significant bits, ties to even — the
rounding CPython performs in float(int). -/
def roundTo53 (m : ℕ) : ℕ :=
  if m < 2 ^ 53 then m
  else
    let e := log2fuel m m
    let k := e - 52
    let q := m / 2 ^ k
    let r := m % 2 ^ k
    let half := 2 ^ (k - 1)
    if half < r || (r == half && q % 2 == 1) then (q + 1) * 2 ^ k else q * 2 ^ k

/-- Model of CPython float(int): the exact integer value of the resulting
double, or OverflowError when the rounded magnitude reaches 2^1024.  Every
double produced from an int is integral, so an integer return value is
faithful. -/
def pyFloatOfInt (n : ℤ) : Except PyErr ℤ :=
  let m := roundTo53 n.natAbs
  if 2 ^ 1024 ≤ m then .error .overflowError
  else .ok (if n < 0 then -(m : ℤ) else (m : ℤ))

/-- numbers.py format_number, on the values the modelled parser produces
(ints; the float branch of to_number is unreachable, see PyErr).
Source: flt = float(num); flt.is_integer() holds for every float obtained
from an int, so the result is str(int(flt)). -/
def format_number (n : ℤ) : Except PyErr String :=
  (pyFloatOfInt n).map pyStrInt

/-! ### numbers.py to_number -/

/-- numbers.py to_number.  First branch: int_rgx.match(num) then int(num).
The second branch would evaluate flt_rgx.match(num), but flt_rgx never
exists (its re.compile raises at import, claim C1), which also makes the
final raise ValueError("Invalid number format: ...") unreachable; both are
collapsed into the unreachable-state marker regexCompileError. -/
def to_number (s : String) : Except PyErr ℤ :=
  if int_rgx_match s then .ok (pyParseInt s)
  else .error .regexCompileError

/-- to_number applied to a capture group that may be None (Python raises
TypeError inside int_rgx.match(None)). -/
def to_number_opt : Option String → Except PyErr ℤ
  | none => .error .typeError
  | some s => to_number s

/-! ### intervals.py check_interval_str_match and to_interval -/

/-- The 6-tuple match.groups() of interval_rgx, as strings.  Python's
tuple is 0-indexed over regex groups 1..6: groups()[i] is regex group i+1. -/
def groupsOf (g : Caps) : List (Option String) :=
  [(g 1).map (fun l => (⟨l⟩ : String)), (g 2).map (fun l => (⟨l⟩ : String)),
   (g 3).map (fun l => (⟨l⟩ : String)), (g 4).map (fun l => (⟨l⟩ : String)),
   (g 5).map (fun l => (⟨l⟩ : String)), (g 6).map (fun l => (⟨l⟩ : String))]

/-- intervals.py check_interval_str_match.  On success Python returns the
Match object; the model returns its groups() 6-tuple, which is all
to_interval reads from it.  Note the source selects groups[4] and
groups[5] in the bracketless case, i.e. regex groups 5 and 6 (the spaced
maximum and the right bracket), exactly as written. -/
def check_interval_str_match (s : String) : Except PyErr (List (Option String)) :=
  match reFullmatch interval_rgx s with
  | none => .error (.valueError ("Invalid interval format: " ++ s))
  | some g =>
      let groups := groupsOf g
      let minv := if (groups.getD 0 none).isSome then groups.getD 1 none else groups.getD 4 none
      let maxv := if (groups.getD 0 none).isSome then groups.getD 2 none else groups.getD 5 none
      match to_number_opt minv with
      | .error e => .error e
      | .ok a =>
        match to_number_opt maxv with
        | .error e => .error e
        | .ok b =>
          if b < a then .error (.valueError ("Minimum value is greater than maximum value: " ++ s))
          else .ok groups

/-- The model of a sympy Interval as constructed by to_interval: start and
end values with the two openness flags.  No execution path of the modelled
code ever reaches the constructor call, so sympy's own normalisations need
not be modelled. -/
structure IntervalM where
  start : ℤ
  endv : ℤ
  left_open : Bool
  right_open : Bool
deriving DecidableEq, Repr

/-- intervals.py to_interval.  After check_interval_str_match, the source
does
  left_bracket, min_val, max_val, right_bracket = match.groups()
which unpacks the 6-tuple groups() into 4 targets; in Python that raises
ValueError("too many values to unpack (expected 4)") whenever the tuple
does not have exactly 4 elements. -/
def to_interval (s : String) : Except PyErr IntervalM :=
  match check_interval_str_match s with
  | .error e => .error e
  | .ok groups =>
      match groups with
      | [lb, mn, mx, rb] =>
          match to_number_opt mn with
          | .error e => .error e
          | .ok a =>
            match to_number_opt mx with
            | .error e => .error e
            | .ok b =>
              .ok ⟨a, b, lb == some "(", rb == some ")"⟩
      | _ => .error (.valueError "too many values to unpack (expected 4)")

/-- intervals.py format_interval (the live one), for intervals with the
integer-valued bounds the modelled pipeline handles:
  left_bracket = "(" if interval.left_open else "["
  right_bracket = ")" if interval.right_open else "]"
  f-string: left_bracket, format_number(start), " .. ", format_number(end),
  right_bracket.
format_number may raise OverflowError, which propagates. -/
def format_interval (iv : IntervalM) : Except PyErr String :=
  match format_number iv.start with
  | .error e => .error e
  | .ok s1 =>
    match format_number iv.endv with
    | .error e => .error e
    | .ok s2 =>
      .ok ((if iv.left_open then "(" else "[") ++ s1 ++ " .. " ++ s2 ++
           (if iv.right_open then ")" else "]"))

/-! ### Model of CPython's regex-compile validity check

CPython's sre_parse rejects a quantifier that has no preceding repeatable
item ("nothing to repeat") and a quantifier applied to a quantifier
("multiple repeat"; a single ? after a quantifier is the lazy modifier and
is allowed).  The scanner below walks a pattern left to right tracking just
enough state to decide those checks for the pattern dialect used in
numbers.py (literals, escapes, character classes, groups, (?: (?= (?!,
alternation, anchors, and the quantifiers ? * +).  The patterns checked
with it are otherwise well-formed. -/

/-- What the previously parsed item was. -/
inductive PrevItem where
  | fresh
  | atom
  | repGreedy
  | repLazy
deriving DecidableEq, Repr

/-- Scanner state: outside any bracket construct (with the previous item),
after a backslash, just after an opening parenthesis, after (?, or inside a
character class (at its very start, after a leading caret, in the body, or
after a backslash in the body). -/
inductive ScanSt where
  | out (prev : PrevItem)
  | esc
  | grpOpen
  | grpExt
  | cls0
  | cls1
  | clsBody
  | clsEsc
deriving DecidableEq, Repr

/-- One step of the scanner in the outside state. -/
def stepOut (prev : PrevItem) (c : Char) : Option ScanSt :=
  if c = '\\' then some .esc
  else if c = '[' then some .cls0
  else if c = '(' then some .grpOpen
  else if c = ')' then some (.out .atom)
  else if c = '|' then some (.out .fresh)
  else if c = '^' || c = '$' then some (.out .fresh)
  else if c = '?' then
    match prev with
    | .atom => some (.out .repGreedy)
    | .repGreedy => some (.out .repLazy)
    | _ => none
  else if c = '*' || c = '+' then
    match prev with
    | .atom => some (.out .repGreedy)
    | _ => none
  else some (.out .atom)

/-- One step of the scanner. -/
def reScanStep (st : ScanSt) (c : Char) : Option ScanSt :=
  match st with
  | .out prev => stepOut prev c
  | .esc => some (.out .atom)
  | .grpOpen => if c = '?' then some .grpExt else stepOut .fresh c
  | .grpExt => if c = ':' || c = '=' || c = '!' then some (.out .fresh) else none
  | .cls0 =>
      if c = '^' then some .cls1
      else if c = '\\' then some .clsEsc
      else some .clsBody
  | .cls1 =>
      if c = '\\' then some .clsEsc
      else some .clsBody
  | .clsBody =>
      if c = ']' then some (.out .atom)
      else if c = '\\' then some .clsEsc
      else some .clsBody
  | .clsEsc => some .clsBody

/-- Whether re.compile accepts the pattern (with respect to the
quantifier-placement checks modelled here). -/
def pyRegexCompileOk (pat : String) : Bool :=
  match pat.data.foldlM reScanStep (ScanSt.out .fresh) with
  | some (.out _) => true
  | _ => false

/-- The compile call numbers.py issues for each pattern body:
re.compile(f"^({body})$"). -/
def pyPat (body : String) : String := "^(" ++ body ++ ")$"

/-! ### The pattern strings of numbers.py, verbatim -/

/-- numbers.py line 74. -/
def flt_bsc_opl_rgx_str : String := "[+-]?(?:\\d+\\.\\d+|\\d*\\.\\d*[1-9]\\d*)"

/-- numbers.py line 106. -/
def flt_bsc_opt_rgx_str : String := "[+-]?\\d+\\.\\d*"

/-- numbers.py line 132. -/
def flt_bsc_rgx_str : String := "[+-]?\\d+\\.\\d+"

/-- numbers.py line 158. -/
def flt_bsc_rlx_rgx_str : String := "[+-]?(?:\\d+\\.\\d*|\\d*\\.\\d*[1-9]\\d*)"

/-- numbers.py line 190. -/
def flt_bsc_sct_rgx_str : String := "\\d+\\.\\d+|-\\d+\\.\\d*[1-9]\\d*|-\\d*[1-9]\\d*\\.\\d+"

/-- numbers.py line 222 — note the alternation (?:+?\d+|-[1-9]\d*) whose
first branch begins with a bare quantifier. -/
def flt_rgx_str : String := "[+-]?(?:\\d+\\.\\d+|[1-9](?:\\.\\d+)?[eE](?:+?\\d+|-[1-9]\\d*))"

/-- numbers.py line 270. -/
def flt_rlx_rgx_str : String :=
  "[+-]?(?:\\d+\\.\\d*|\\d*\\.\\d*[1-9]\\d*|(?:\\d*[1-9]\\d*\\.\\d*|\\d*\\.\\d*[1-9]\\d*)[eE][+-]?\\d+)"

/-- numbers.py line 322 — note the alternation (?:+\d+|-[1-9]\d*) whose
first branch begins with a bare quantifier. -/
def flt_sct_rgx_str : String :=
  "-?\\d+\\.\\d+|-?(?:\\d*[1-9]\\d*\\.\\d+|\\d+\\.\\d*[1-9]\\d*)e(?:+\\d+|-[1-9]\\d*)"

/-- numbers.py line 374. -/
def int_rgx_str : String := "[+-]?\\d+"

/-- numbers.py line 398. -/
def int_sct_rgx_str : String := "\\d+|-\\d*[1-9]\\d*"

/-- numbers.py line 428. -/
def num_bsc_opl_rgx_str : String := "[+-]?(?:\\d+|\\d+\\.\\d+|\\d*\\.\\d*[1-9]\\d*)"

/-- numbers.py line 462. -/
def num_bsc_opt_rgx_str : String := "[+-]?\\d+\\.?\\d*"

/-- numbers.py line 492. -/
def num_bsc_rgx_str : String := "[+-]?\\d+(?:\\.\\d+)?"

/-- numbers.py line 514. -/
def num_bsc_rlx_rgx_str : String := "[+-]?(?:\\d*\\.?\\d+|\\d+\\.\\d*)"

/-- numbers.py line 535. -/
def num_bsc_sct_rgx_str : String := "-?\\d+(?:\\.\\d+)?"

/-- numbers.py line 556. -/
def num_opl_rgx_str : String := "[+-]?\\d*\\.?\\d+(?:[eE][+-]?\\d+)?"

/-- numbers.py line 577. -/
def num_opt_rgx_str : String := "[+-]?\\d+\\.?\\d*(?:[eE][+-]?\\d+)?"

/-- numbers.py line 598. -/
def num_rgx_str : String := "[+-]?(?:\\d+(?:\\.\\d+)?|[1-9](?:\\.\\d+)?[eE][+-]\\d+)"

/-- numbers.py line 619. -/
def num_rlx_rgx_str : String := "[+-]?(?:\\d*\\.?\\d+|\\d+\\.\\d*)(?:[eE][+-]?\\d+)?"

/-- numbers.py line 642. -/
def num_sct_rgx_str : String := "-?(?:\\d+(?:\\.\\d+)?|[1-9]\\.\\d+e[+-]\\d+)"

/-- numbers.py line 664. -/
def sci_rgx_str : String := "[+-]?\\d+(?:\\.\\d+)?[eE][+-]\\d+"

/-- numbers.py line 685. -/
def sci_rlx_rgx_str : String := "[+-]?(?:\\d*\\.?\\d+|\\d+\\.\\d*)[eE][+-]?\\d+"

/-- numbers.py line 706. -/
def sci_sct_rgx_str : String := "-?\\d+(?:\\.\\d+)?e[+-]\\d+"

/-! ### Scanner for runs of three dots (claim C9) -/

/-- dotScan d l walks l keeping the length d of the current run of
consecutive dots; none means a run of three was completed.  Starting from
d = 0, dotScan is none exactly on strings containing three consecutive
dots, and otherwise returns the length of the trailing dot run. -/
def dotScan : Nat → List Char → Option Nat
  | d, [] => some d
  | d, c :: t => if c = '.' then (if 3 ≤ d + 1 then none else dotScan (d + 1) t) else dotScan 0 t

/-! ### Soundness of the capturing matcher -/

/-- Case split for the ordered-choice combinator on Option. -/
theorem orElse_some {α : Type} {x y : Option α} {v : α} (h : (x <|> y) = some v) :
    x = some v ∨ (x = none ∧ y = some v) := by
  cases x <;> simp_all

/-- If the capturing matcher succeeds then the input splits into a span
matched by the pattern and a rest accepted by the continuation.  Holds for
every fuel value. -/
theorem runG_sound : ∀ (f : Nat) (r : RE) (s : List Char) (g : Caps)
    (k : List Char → Caps → Option Caps) (res : Caps),
    runG f r s g k = some res →
    ∃ t u g', s = t ++ u ∧ SMat r t ∧ k u g' = some res := by
  intro f
  induction f with
  | zero =>
    intro r s g k res h
    simp [runG] at h
  | succ f ihf =>
    intro r s g k res h
    match r with
    | .eps =>
      simp only [runG] at h
      exact ⟨[], s, g, rfl, SMat.eps, h⟩
    | .cls p =>
      match s with
      | [] => simp [runG] at h
      | c :: t =>
        simp only [runG] at h
        by_cases hp : p c
        · exact ⟨[c], t, g, rfl, SMat.cls hp, by simpa [hp] using h⟩
        · simp [hp] at h
    | .cat a b =>
      simp only [runG] at h
      obtain ⟨t, u, g', rfl, hm, hk⟩ := ihf a s g _ res h
      obtain ⟨t2, u2, g2, rfl, hm2, hk2⟩ := ihf b u g' k res hk
      exact ⟨t ++ t2, u2, g2, by simp, SMat.cat hm hm2, hk2⟩
    | .alt a b =>
      simp only [runG] at h
      rcases orElse_some h with ho | ⟨-, ho⟩
      · obtain ⟨t, u, g', rfl, hm, hk⟩ := ihf a s g k res ho
        exact ⟨t, u, g', rfl, SMat.altL hm, hk⟩
      · obtain ⟨t, u, g', rfl, hm, hk⟩ := ihf b s g k res ho
        exact ⟨t, u, g', rfl, SMat.altR hm, hk⟩
    | .grp i a =>
      simp only [runG] at h
      obtain ⟨t, u, g', rfl, hm, hk⟩ := ihf a s g _ res h
      exact ⟨t, u, capsSet g' i ((t ++ u).take ((t ++ u).length - u.length)), rfl,
        SMat.grp hm, hk⟩
    | .look a =>
      simp only [runG] at h
      rcases ho : runG f a s g fun _ g' => some g' with _ | v
      · rw [ho] at h; exact absurd h (by simp)
      · rw [ho] at h
        exact ⟨[], s, g, rfl, SMat.look, h⟩
    | .star a =>
      simp only [runG] at h
      rcases orElse_some h with ho | ⟨-, ho⟩
      · obtain ⟨t, u, g', hsplit, hm, hk⟩ := ihf a s g _ res ho
        by_cases hlt : u.length < s.length
        · rw [if_pos hlt] at hk
          obtain ⟨t2, u2, g2, hsplit2, hm2, hk2⟩ := ihf (.star a) u g' k res hk
          refine ⟨t ++ t2, u2, g2, ?_, ?_, hk2⟩
          · rw [hsplit, hsplit2, List.append_assoc]
          · refine SMat.starCons hm ?_ hm2
            intro ht
            subst ht
            simp only [List.nil_append] at hsplit
            subst hsplit
            omega
        · rw [if_neg hlt] at hk
          exact absurd hk (by simp)
      · exact ⟨[], s, g, rfl, SMat.starNil, ho⟩

/-- Soundness of fullmatch: a successful fullmatch means the whole input is
in the language of the pattern. -/
theorem reFullmatch_sound {r : RE} {s : String} {g : Caps}
    (h : reFullmatch r s = some g) : SMat r s.data := by
  unfold reFullmatch at h
  obtain ⟨t, u, g', hsplit, hm, hk⟩ := runG_sound _ _ _ _ _ _ h
  by_cases hu : u.isEmpty
  · rw [List.isEmpty_iff] at hu
    subst hu
    simpa [hsplit] using hm
  · rw [if_neg hu] at hk
    exact absurd hk (by simp)

/-! ### Dot-run analysis (towards claim C9)

dotScan composes over concatenation, dies on three consecutive dots, and
passes through dot-free spans; the lemmas after that walk the structure of
interval_rgx and show every matched string keeps every dot run at length
at most two. -/

/-- dotScan distributes over concatenation. -/
theorem dotScan_append : ∀ (x y : List Char) (d : Nat),
    dotScan d (x ++ y) = (dotScan d x).bind (fun d' => dotScan d' y) := by
  intro x
  induction x with
  | nil => intro y d; simp [dotScan]
  | cons c t ih =>
    intro y d
    by_cases hc : c = '.'
    · subst hc
      by_cases h3 : 3 ≤ d + 1
      · simp [dotScan, h3]
      · simp only [List.cons_append, dotScan, if_pos rfl, if_neg h3]
        exact ih y (d + 1)
    · simp only [List.cons_append, dotScan, if_neg hc]
      exact ih y 0

/-- Three consecutive dots kill the scan from any entry state. -/
theorem dotScan_three (d : Nat) (b : List Char) :
    dotScan d ('.' :: '.' :: '.' :: b) = none := by
  match d with
  | 0 => simp [dotScan]
  | 1 => simp [dotScan]
  | d + 2 =>
    have h3 : 3 ≤ d + 2 + 1 := by omega
    simp [dotScan, h3]

/-- A dot-free span scans to state 0 (or passes the state through when
empty). -/
theorem dotScan_nondot : ∀ (l : List Char), (∀ c ∈ l, c ≠ '.') → ∀ d,
    dotScan d l = some (if l.isEmpty then d else 0) := by
  intro l
  induction l with
  | nil => intro _ d; simp [dotScan]
  | cons c t ih =>
    intro hnd d
    have hc : c ≠ '.' := hnd c (List.mem_cons_self _ _)
    simp only [dotScan, if_neg hc, List.isEmpty_cons]
    rw [ih (fun x hx => hnd x (List.mem_cons_of_mem _ hx)) 0]
    split <;> rfl

/-- A character of a class that excludes the dot is not a dot. -/
theorem ne_dot_of_class {p : Char → Bool} {c : Char} (hc : p c = true)
    (hdot : p '.' = false) : c ≠ '.' := by
  intro he
  subst he
  rw [hc] at hdot
  exact Bool.noConfusion hdot

/-! ### Inversion lemmas for SMat -/

/-- A class matches exactly a satisfying single character. -/
theorem SMat_cls_inv {p : Char → Bool} {l : List Char} (h : SMat (.cls p) l) :
    ∃ c, l = [c] ∧ p c = true := by
  cases h with
  | cls hc => exact ⟨_, rfl, hc⟩

/-- An option matches the body or the empty span. -/
theorem SMat_opt_inv {a : RE} {l : List Char} (h : SMat (.opt a) l) :
    SMat a l ∨ l = [] := by
  have h' : SMat (.alt a .eps) l := h
  cases h' with
  | altL h'' => exact .inl h''
  | altR h'' => cases h''; exact .inr rfl

/-- A group matches what its body matches. -/
theorem SMat_grp_inv {i : Nat} {a : RE} {l : List Char} (h : SMat (.grp i a) l) :
    SMat a l := by
  cases h with
  | grp h' => exact h'

/-- A starred class matches only characters of the class. -/
theorem SMat_star_cls_inv {p : Char → Bool} {l : List Char}
    (h : SMat (.star (.cls p)) l) : ∀ c ∈ l, p c = true := by
  suffices aux : ∀ (r : RE) (l : List Char), SMat r l → ∀ (q : Char → Bool),
      r = .star (.cls q) → ∀ c ∈ l, q c = true from aux _ _ h p rfl
  intro r l hm
  induction hm with
  | eps => intro q hr; exact absurd hr (by simp)
  | cls _ => intro q hr; exact absurd hr (by simp)
  | cat _ _ _ _ => intro q hr; exact absurd hr (by simp)
  | altL _ _ => intro q hr; exact absurd hr (by simp)
  | altR _ _ => intro q hr; exact absurd hr (by simp)
  | starNil => intro q hr c hc; exact absurd hc (List.not_mem_nil c)
  | starCons hmt htne hmu iht ihu =>
    intro q hr c hc
    injection hr with hr'
    subst hr'
    rcases List.mem_append.mp hc with hc | hc
    · obtain ⟨c', rfl, hc'⟩ := SMat_cls_inv hmt
      rw [List.mem_singleton.mp hc]
      exact hc'
    · exact ihu q rfl c hc
  | grp _ _ => intro q hr; exact absurd hr (by simp)
  | look => intro q hr; exact absurd hr (by simp)

/-- A repeated class matches a nonempty span of class characters. -/
theorem SMat_rep1_cls_inv {p : Char → Bool} {l : List Char}
    (h : SMat (.rep1 (.cls p)) l) : l ≠ [] ∧ ∀ c ∈ l, p c = true := by
  have h' : SMat (.cat (.cls p) (.star (.cls p))) l := h
  cases h' with
  | cat hm1 hm2 =>
    obtain ⟨c, rfl, hc⟩ := SMat_cls_inv hm1
    refine ⟨by simp, ?_⟩
    intro x hx
    rcases List.mem_append.mp hx with hx | hx
    · rw [List.mem_singleton.mp hx]; exact hc
    · exact SMat_star_cls_inv hm2 x hx

/-! ### Dot-run bounds for the components of interval_rgx -/

/-- A starred dot-free class scans without raising the state. -/
theorem scan_star_cls {p : Char → Bool} (hdot : p '.' = false) {l : List Char}
    (h : SMat (.star (.cls p)) l) (d : Nat) :
    ∃ d' ≤ d, dotScan d l = some d' := by
  have hnd : ∀ c ∈ l, c ≠ '.' := fun c hc => ne_dot_of_class (SMat_star_cls_inv h c hc) hdot
  rw [dotScan_nondot l hnd d]
  refine ⟨if l.isEmpty then d else 0, ?_, rfl⟩
  split <;> omega

/-- A repeated dot-free class scans to state 0. -/
theorem scan_rep1_cls {p : Char → Bool} (hdot : p '.' = false) {l : List Char}
    (h : SMat (.rep1 (.cls p)) l) (d : Nat) : dotScan d l = some 0 := by
  obtain ⟨hne, hchars⟩ := SMat_rep1_cls_inv h
  have hnd : ∀ c ∈ l, c ≠ '.' := fun c hc => ne_dot_of_class (hchars c hc) hdot
  rw [dotScan_nondot l hnd d]
  rw [if_neg (by simpa using hne)]

/-- An optional dot-free class scans without raising the state. -/
theorem scan_opt_cls {p : Char → Bool} (hdot : p '.' = false) {l : List Char}
    (h : SMat (.opt (.cls p)) l) (d : Nat) :
    ∃ d' ≤ d, dotScan d l = some d' := by
  rcases SMat_opt_inv h with h' | rfl
  · obtain ⟨c, rfl, hc⟩ := SMat_cls_inv h'
    have hnd : ∀ x ∈ [c], x ≠ '.' := by
      intro x hx
      rw [List.mem_singleton.mp hx]
      exact ne_dot_of_class hc hdot
    rw [dotScan_nondot _ hnd d]
    exact ⟨0, Nat.zero_le d, rfl⟩
  · exact ⟨d, le_rfl, by simp [dotScan]⟩

/-- An optional bracket group scans without raising the state. -/
theorem scan_opt_grp_cls {i : Nat} {p : Char → Bool} (hdot : p '.' = false)
    {l : List Char} (h : SMat (.opt (.grp i (.cls p))) l) (d : Nat) :
    ∃ d' ≤ d, dotScan d l = some d' := by
  rcases SMat_opt_inv h with h' | rfl
  · obtain ⟨c, rfl, hc⟩ := SMat_cls_inv (SMat_grp_inv h')
    have hnd : ∀ x ∈ [c], x ≠ '.' := by
      intro x hx
      rw [List.mem_singleton.mp hx]
      exact ne_dot_of_class hc hdot
    rw [dotScan_nondot _ hnd d]
    exact ⟨0, Nat.zero_le d, rfl⟩
  · exact ⟨d, le_rfl, by simp [dotScan]⟩

/-- The optional dot of the number grammars, entered at state 0, leaves the
state at most 1. -/
theorem scan_opt_dot {l : List Char} (h : SMat (.opt dotC) l) :
    ∃ d' ≤ 1, dotScan 0 l = some d' := by
  rcases SMat_opt_inv h with h' | rfl
  · obtain ⟨c, rfl, hc⟩ := SMat_cls_inv h'
    rw [beq_iff_eq] at hc
    subst hc
    exact ⟨1, le_rfl, by simp [dotScan]⟩
  · exact ⟨0, by omega, by simp [dotScan]⟩

/-- The characters of an exponent part contain no dot. -/
theorem expOpt_chars {l : List Char} (h : SMat expOpt l) : ∀ c ∈ l, c ≠ '.' := by
  rcases SMat_opt_inv h with h' | rfl
  · cases h' with
    | cat hm1 hm2 =>
      obtain ⟨c, rfl, hc⟩ := SMat_cls_inv hm1
      cases hm2 with
      | cat hm3 hm4 =>
        intro x hx
        rcases List.mem_append.mp hx with hx | hx
        · rw [List.mem_singleton.mp hx]
          exact ne_dot_of_class hc (by decide)
        · rcases List.mem_append.mp hx with hx | hx
          · rcases SMat_opt_inv hm3 with h3 | h3
            · obtain ⟨c', hc', hcc⟩ := SMat_cls_inv h3
              rw [hc'] at hx
              rw [List.mem_singleton.mp hx]
              exact ne_dot_of_class hcc (by decide)
            · rw [h3] at hx
              exact absurd hx (List.not_mem_nil x)
          · exact ne_dot_of_class ((SMat_rep1_cls_inv hm4).2 x hx) (by decide)
  · intro x hx
    exact absurd hx (List.not_mem_nil x)

/-- The exponent part scans without raising the state. -/
theorem scan_expOpt {l : List Char} (h : SMat expOpt l) (d : Nat) :
    ∃ d' ≤ d, dotScan d l = some d' := by
  rw [dotScan_nondot l (expOpt_chars h) d]
  refine ⟨if l.isEmpty then d else 0, ?_, rfl⟩
  split <;> omega

/-- The two-dot ellipsis is exactly two dots. -/
theorem SMat_ddot_inv {l : List Char} (h : SMat ddot l) : l = ['.', '.'] := by
  cases h with
  | cat hm1 hm2 =>
    obtain ⟨c, rfl, hc⟩ := SMat_cls_inv hm1
    obtain ⟨c', rfl, hc'⟩ := SMat_cls_inv hm2
    rw [beq_iff_eq] at hc hc'
    rw [hc, hc']
    rfl

/-- num_opl (which cannot end in a dot), entered at state 0, exits at 0. -/
theorem scan_num_opl {l : List Char} (h : SMat num_opl_rgx l) :
    dotScan 0 l = some 0 := by
  have h' : SMat (.cat sgnOpt (.cat digits0 (.cat (.opt dotC) (.cat digits1 expOpt)))) l := h
  cases h' with
  | cat h1 hr =>
  cases hr with
  | cat h2 hr =>
  cases hr with
  | cat h3 hr =>
  cases hr with
  | cat h4 h5 =>
  obtain ⟨d1, hd1, hs1⟩ := scan_opt_cls (by decide) h1 0
  have : d1 = 0 := by omega
  subst this
  obtain ⟨d2, hd2, hs2⟩ := scan_star_cls (by decide) h2 0
  have : d2 = 0 := by omega
  subst this
  obtain ⟨d3, hd3, hs3⟩ := scan_opt_dot h3
  have hs4 := scan_rep1_cls (by decide) h4 d3
  obtain ⟨d5, hd5, hs5⟩ := scan_expOpt h5 0
  have : d5 = 0 := by omega
  subst this
  rw [dotScan_append, hs1, Option.some_bind, dotScan_append, hs2, Option.some_bind,
    dotScan_append, hs3, Option.some_bind, dotScan_append, hs4, Option.some_bind]
  exact hs5

/-- num_opt (which cannot start with a dot), entered at any state, exits at
state at most 1. -/
theorem scan_num_opt {l : List Char} (h : SMat num_opt_rgx l) (d : Nat) :
    ∃ d' ≤ 1, dotScan d l = some d' := by
  have h' : SMat (.cat sgnOpt (.cat digits1 (.cat (.opt dotC) (.cat digits0 expOpt)))) l := h
  cases h' with
  | cat h1 hr =>
  cases hr with
  | cat h2 hr =>
  cases hr with
  | cat h3 hr =>
  cases hr with
  | cat h4 h5 =>
  obtain ⟨d1, hd1, hs1⟩ := scan_opt_cls (by decide) h1 d
  have hs2 := scan_rep1_cls (by decide) h2 d1
  obtain ⟨d3, hd3, hs3⟩ := scan_opt_dot h3
  obtain ⟨d4, hd4, hs4⟩ := scan_star_cls (by decide) h4 d3
  obtain ⟨d5, hd5, hs5⟩ := scan_expOpt h5 d4
  refine ⟨d5, by omega, ?_⟩
  rw [dotScan_append, hs1, Option.some_bind, dotScan_append, hs2, Option.some_bind,
    dotScan_append, hs3, Option.some_bind, dotScan_append, hs4, Option.some_bind]
  exact hs5

/-- num_rlx, entered at state 0, exits at state at most 1. -/
theorem scan_num_rlx {l : List Char} (h : SMat num_rlx_rgx l) :
    ∃ d' ≤ 1, dotScan 0 l = some d' := by
  have h' : SMat (.cat sgnOpt
      (.cat (.alt (.cat digits0 (.cat (.opt dotC) digits1))
        (.cat digits1 (.cat dotC digits0))) expOpt)) l := h
  cases h' with
  | cat h1 hr =>
  cases hr with
  | @cat _ _ tm t5 hAB h5 =>
  obtain ⟨d1, hd1, hs1⟩ := scan_opt_cls (by decide) h1 0
  have : d1 = 0 := by omega
  subst this
  have hmid : ∃ dm ≤ 1, dotScan 0 tm = some dm := by
    cases hAB with
    | altL hA =>
      cases hA with
      | cat ha1 har =>
      cases har with
      | cat ha2 ha3 =>
      obtain ⟨e1, he1, hsA1⟩ := scan_star_cls (by decide) ha1 0
      have : e1 = 0 := by omega
      subst this
      obtain ⟨e2, he2, hsA2⟩ := scan_opt_dot ha2
      have hsA3 := scan_rep1_cls (by decide) ha3 e2
      refine ⟨0, by omega, ?_⟩
      rw [dotScan_append, hsA1, Option.some_bind, dotScan_append, hsA2, Option.some_bind]
      exact hsA3
    | altR hB =>
      cases hB with
      | cat hb1 hbr =>
      cases hbr with
      | cat hb2 hb3 =>
      have hsB1 := scan_rep1_cls (by decide) hb1 0
      obtain ⟨c, hcl, hc⟩ := SMat_cls_inv hb2
      rw [beq_iff_eq] at hc
      subst hc
      obtain ⟨e3, he3, hsB3⟩ := scan_star_cls (by decide) hb3 1
      refine ⟨e3, by omega, ?_⟩
      rw [dotScan_append, hsB1, Option.some_bind, hcl, dotScan_append]
      rw [show dotScan 0 ['.'] = some 1 by simp [dotScan], Option.some_bind]
      exact hsB3
  obtain ⟨dm, hdm, hsm⟩ := hmid
  obtain ⟨d5, hd5, hs5⟩ := scan_expOpt h5 dm
  refine ⟨d5, by omega, ?_⟩
  rw [dotScan_append, hs1, Option.some_bind, dotScan_append, hsm, Option.some_bind]
  exact hs5

/-- The no-space interval core survives the scan and exits at state at most
1 (the separator's two dots land between a digit and a sign-or-digit). -/
theorem scan_invl_rlx {l : List Char} (h : SMat invl_rlx_spc l) :
    ∃ d' ≤ 1, dotScan 0 l = some d' := by
  cases h with
  | cat hg2 hr =>
  cases hr with
  | cat hdd hg3 =>
  have hs1 := scan_num_opl (SMat_grp_inv hg2)
  have hdd' := SMat_ddot_inv hdd
  obtain ⟨d3, hd3, hs3⟩ := scan_num_opt (SMat_grp_inv hg3) 2
  refine ⟨d3, hd3, ?_⟩
  rw [dotScan_append, hs1, Option.some_bind, hdd', dotScan_append]
  rw [show dotScan 0 ['.', '.'] = some 2 by simp [dotScan], Option.some_bind]
  exact hs3

/-- The spaced interval core survives the scan and exits at state at most 1
(the separator's two dots sit between whitespace). -/
theorem scan_invl_sct {l : List Char} (h : SMat invl_sct_spc l) :
    ∃ d' ≤ 1, dotScan 0 l = some d' := by
  cases h with
  | cat hg4 hr =>
  cases hr with
  | cat hw1 hr =>
  cases hr with
  | cat hdd hr =>
  cases hr with
  | cat hw2 hg5 =>
  obtain ⟨d1, hd1, hs1⟩ := scan_num_rlx (SMat_grp_inv hg4)
  have hsw1 := scan_rep1_cls (by decide) hw1 d1
  have hdd' := SMat_ddot_inv hdd
  have hsw2 := scan_rep1_cls (by decide) hw2 2
  obtain ⟨d5, hd5, hs5⟩ := scan_num_rlx (SMat_grp_inv hg5)
  refine ⟨d5, hd5, ?_⟩
  rw [dotScan_append, hs1, Option.some_bind, dotScan_append, hsw1, Option.some_bind,
    hdd', dotScan_append]
  rw [show dotScan 0 ['.', '.'] = some 2 by simp [dotScan], Option.some_bind]
  rw [dotScan_append, hsw2, Option.some_bind]
  exact hs5

/-- Every string matched by interval_rgx survives the three-dot scan: no
matched string contains three consecutive dots. -/
theorem scan_interval {l : List Char} (h : SMat interval_rgx l) :
    (dotScan 0 l).isSome = true := by
  have h' : SMat (.cat wsStar
      (.cat (.opt (.grp 1 (.cls isLBr)))
        (.cat wsStar
          (.cat (.alt invl_rlx_spc invl_sct_spc)
            (.cat wsStar
              (.cat (.opt (.grp 6 (.cls isRBr))) wsStar)))))) l := h
  cases h' with
  | cat hw1 hr =>
  cases hr with
  | cat hb1 hr =>
  cases hr with
  | cat hw2 hr =>
  cases hr with
  | @cat _ _ tc trest hcore hr =>
  cases hr with
  | cat hw3 hr =>
  cases hr with
  | cat hb2 hw4 =>
  obtain ⟨e1, he1, hs1⟩ := scan_star_cls (by decide) hw1 0
  have : e1 = 0 := by omega
  subst this
  obtain ⟨e2, he2, hs2⟩ := scan_opt_grp_cls (by decide) hb1 0
  have : e2 = 0 := by omega
  subst this
  obtain ⟨e3, he3, hs3⟩ := scan_star_cls (by decide) hw2 0
  have : e3 = 0 := by omega
  subst this
  have hcm : ∃ dm ≤ 1, dotScan 0 tc = some dm := by
    cases hcore with
    | altL hA => exact scan_invl_rlx hA
    | altR hB => exact scan_invl_sct hB
  obtain ⟨dm, hdm, hsm⟩ := hcm
  obtain ⟨e4, he4, hs4⟩ := scan_star_cls (by decide) hw3 dm
  obtain ⟨e5, he5, hs5⟩ := scan_opt_grp_cls (by decide) hb2 e4
  obtain ⟨e6, he6, hs6⟩ := scan_star_cls (by decide) hw4 e5
  rw [dotScan_append, hs1, Option.some_bind, dotScan_append, hs2, Option.some_bind,
    dotScan_append, hs3, Option.some_bind, dotScan_append, hsm, Option.some_bind,
    dotScan_append, hs4, Option.some_bind, dotScan_append, hs5, Option.some_bind, hs6]
  rfl

/-- A successful check_interval_str_match always hands back a 6-tuple of
groups (the pattern has six capture groups). -/
theorem check_ok_groups (s : String) (gs : List (Option String))
    (h : check_interval_str_match s = .ok gs) :
    ∃ g1 g2 g3 g4 g5 g6, gs = [g1, g2, g3, g4, g5, g6] := by
  simp only [check_interval_str_match] at h
  rcases hm : reFullmatch interval_rgx s with _ | g
  · rw [hm] at h; exact absurd h (by simp)
  · rw [hm] at h
    split at h
    · exact absurd h (by simp)
    · split at h
      · exact absurd h (by simp)
      · split at h
        · exact absurd h (by simp)
        · split at h
          · exact absurd h (by simp)
          · injection h with h'
            subst h'
            exact ⟨_, _, _, _, _, _, rfl⟩

/-- to_interval can never return an interval: the 6 groups of the match
never fit the 4-target unpacking, so every call raises.  (On top of that,
check_interval_str_match itself reads the wrong group indices, but that
error is only ever a different exception.) -/
theorem to_interval_isOk_false (s : String) : (to_interval s).isOk = false := by
  unfold to_interval
  rcases hc : check_interval_str_match s with e | gs
  · rfl
  · obtain ⟨g1, g2, g3, g4, g5, g6, rfl⟩ := check_ok_groups s _ hc
    rfl

/-! ### Decimal printing and parsing of integers -/

/-- The character of a decimal digit is a digit character. -/
theorem digitChar_isDigit {d : ℕ} (hd : d < 10) : (Char.ofNat (48 + d)).isDigit = true := by
  interval_cases d <;> decide

/-- Reading the digit character back. -/
theorem digitChar_toNat {d : ℕ} (hd : d < 10) : (Char.ofNat (48 + d)).toNat - 48 = d := by
  interval_cases d <;> decide

/-- With enough fuel, natToDigitsRev is Nat.digits in base 10. -/
theorem natToDigitsRev_eq_digits : ∀ f m, m ≤ f → natToDigitsRev f m = Nat.digits 10 m := by
  intro f
  induction f with
  | zero =>
    intro m hm
    interval_cases m
    simp [natToDigitsRev]
  | succ f ih =>
    intro m hm
    match m with
    | 0 => simp [natToDigitsRev]
    | m + 1 =>
      have hstep : natToDigitsRev (f + 1) (m + 1)
          = (m + 1) % 10 :: natToDigitsRev f ((m + 1) / 10) := rfl
      have hdiv : (m + 1) / 10 ≤ f := by
        have := Nat.div_lt_self (Nat.succ_pos m) (by norm_num : (1 : ℕ) < 10)
        omega
      rw [hstep, ih _ hdiv, Nat.digits_def' (by norm_num) (Nat.succ_pos m)]

/-- Folding the decimal characters of a digit list recovers its value. -/
theorem foldl_digits_chr (ds : List ℕ) (hds : ∀ d ∈ ds, d < 10) (a : ℕ) :
    List.foldl (fun x c => 10 * x + (c.toNat - 48)) a
        (ds.reverse.map (fun d => Char.ofNat (48 + d)))
      = a * 10 ^ ds.length + Nat.ofDigits 10 ds := by
  induction ds generalizing a with
  | nil => simp
  | cons d t ih =>
    simp only [List.reverse_cons, List.map_append, List.map_cons, List.map_nil,
      List.foldl_append, List.foldl_cons, List.foldl_nil]
    rw [ih (fun x hx => hds x (List.mem_cons_of_mem _ hx)) a,
      digitChar_toNat (hds d (List.mem_cons_self _ _)), Nat.ofDigits_cons,
      List.length_cons, pow_succ]
    ring

/-- parseNatDigits inverts natDigitsStr. -/
theorem parseNatDigits_natDigitsStr (m : ℕ) : parseNatDigits (natDigitsStr m) = m := by
  unfold natDigitsStr
  by_cases hm : m = 0
  · subst hm; decide
  · rw [if_neg hm, natToDigitsRev_eq_digits m m le_rfl]
    unfold parseNatDigits
    rw [foldl_digits_chr _ (fun d hd => Nat.digits_lt_base (by norm_num) hd) 0]
    simp [Nat.ofDigits_digits]

/-- natDigitsStr is never empty. -/
theorem natDigitsStr_ne_nil (m : ℕ) : natDigitsStr m ≠ [] := by
  unfold natDigitsStr
  by_cases hm : m = 0
  · simp [hm]
  · rw [if_neg hm, natToDigitsRev_eq_digits m m le_rfl]
    simp [Nat.digits_ne_nil_iff_ne_zero.mpr hm]

/-- Every character of natDigitsStr is a digit character. -/
theorem natDigitsStr_all_digit (m : ℕ) : ∀ c ∈ natDigitsStr m, c.isDigit = true := by
  unfold natDigitsStr
  by_cases hm : m = 0
  · simp [hm]
  · rw [if_neg hm, natToDigitsRev_eq_digits m m le_rfl]
    intro c hc
    simp only [List.mem_map, List.mem_reverse] at hc
    obtain ⟨d, hd, rfl⟩ := hc
    exact digitChar_isDigit (Nat.digits_lt_base (by norm_num) hd)

/-- A digit character is not a sign character. -/
theorem isDigit_not_sign {c : Char} (h : c.isDigit = true) : isSignC c = false := by
  rcases hs : isSignC c with _ | _
  · rfl
  · unfold isSignC at hs
    rcases Bool.or_eq_true_iff.mp hs with hp | hp
    · rw [beq_iff_eq] at hp; subst hp; exact absurd h (by decide)
    · rw [beq_iff_eq] at hp; subst hp; exact absurd h (by decide)

/-- Unfolding of int_rgx_match on an explicit first character. -/
theorem int_rgx_match_cons (c : Char) (t : List Char) :
    int_rgx_match ⟨c :: t⟩ =
      (!(if isSignC c then t else c :: t).isEmpty
        && (if isSignC c then t else c :: t).all isDigitC) := rfl

/-- int_rgx accepts every string pyStrInt produces. -/
theorem int_rgx_match_pyStrInt (n : ℤ) : int_rgx_match (pyStrInt n) = true := by
  unfold pyStrInt
  by_cases hn : n < 0
  · rw [if_pos hn]
    rcases hd : natDigitsStr n.natAbs with _ | ⟨c, t⟩
    · exact absurd hd (natDigitsStr_ne_nil _)
    · rw [show (['-'] ++ (c :: t) : List Char) = '-' :: c :: t from rfl, int_rgx_match_cons]
      rw [if_pos (by decide : isSignC '-' = true)]
      simp only [Bool.and_eq_true, Bool.not_eq_true, List.isEmpty_cons, List.all_eq_true]
      exact ⟨rfl, fun x hx => natDigitsStr_all_digit _ x (hd ▸ hx)⟩
  · rw [if_neg hn]
    rcases hd : natDigitsStr n.natAbs with _ | ⟨c, t⟩
    · exact absurd hd (natDigitsStr_ne_nil _)
    · have hcd : c.isDigit = true := natDigitsStr_all_digit _ c (hd ▸ List.mem_cons_self _ _)
      rw [show ([] ++ (c :: t) : List Char) = c :: t from rfl, int_rgx_match_cons]
      rw [if_neg (by simp [isDigit_not_sign hcd])]
      simp only [Bool.and_eq_true, Bool.not_eq_true, List.isEmpty_cons, List.all_eq_true]
      exact ⟨rfl, fun x hx => natDigitsStr_all_digit _ x (hd ▸ hx)⟩

/-- pyParseInt inverts pyStrInt. -/
theorem pyParseInt_pyStrInt (n : ℤ) : pyParseInt (pyStrInt n) = n := by
  have hval := parseNatDigits_natDigitsStr n.natAbs
  unfold pyParseInt pyStrInt
  by_cases hn : n < 0
  · rw [if_pos hn]
    have hdata : (⟨['-'] ++ natDigitsStr n.natAbs⟩ : String).data
        = '-' :: natDigitsStr n.natAbs := rfl
    rw [hdata]
    simp only [List.head?_cons, List.tail_cons]
    rw [if_pos trivial, hval]
    omega
  · rw [if_neg hn]
    have hdata : (⟨[] ++ natDigitsStr n.natAbs⟩ : String).data
        = natDigitsStr n.natAbs := rfl
    rw [hdata]
    rcases hd : natDigitsStr n.natAbs with _ | ⟨c, t⟩
    · exact absurd hd (natDigitsStr_ne_nil _)
    · have hcd : c.isDigit = true := natDigitsStr_all_digit _ c (hd ▸ List.mem_cons_self _ _)
      have hs := isDigit_not_sign hcd
      unfold isSignC at hs
      simp only [Bool.or_eq_false_iff, beq_eq_false_iff_ne, ne_eq] at hs
      rw [List.head?_cons, if_neg (by simp [hs.2]), if_neg (by simp [hs.1]), ← hd, hval]
      omega

/-! ### Properties of the float model -/

/-- Small magnitudes are exactly representable. -/
theorem roundTo53_small {m : ℕ} (h : m < 2 ^ 53) : roundTo53 m = m := by
  unfold roundTo53
  rw [if_pos h]

/-- float(int) is exact on integers below 2^53. -/
theorem pyFloatOfInt_small (n : ℤ) (h : n.natAbs < 2 ^ 53) : pyFloatOfInt n = .ok n := by
  unfold pyFloatOfInt
  rw [roundTo53_small h]
  have hle : (2 : ℕ) ^ 53 ≤ 2 ^ 1024 := Nat.pow_le_pow_right (by norm_num) (by norm_num)
  rw [if_neg (by omega)]
  congr 1
  split <;> omega

/-- With enough fuel, log2fuel is Nat.log2. -/
theorem log2fuel_eq : ∀ f m, m ≤ f → log2fuel f m = Nat.log2 m := by
  intro f
  induction f with
  | zero =>
    intro m hm
    interval_cases m
    simp [log2fuel, Nat.log2]
  | succ f ih =>
    intro m hm
    rw [log2fuel]
    by_cases h1 : m ≤ 1
    · rw [if_pos h1]
      rw [Nat.log2]
      rw [if_neg (by omega)]
    · rw [if_neg h1]
      have hdiv : m / 2 ≤ f := by
        have := Nat.div_lt_self (by omega : 0 < m) (by norm_num : (1 : ℕ) < 2)
        omega
      rw [ih _ hdiv]
      conv_rhs => rw [Nat.log2]
      rw [if_pos (by omega)]

/-- Rounding to 53 bits does not escape the double range for magnitudes up
to 2^1023. -/
theorem roundTo53_lt {m : ℕ} (hm : m ≤ 2 ^ 1023) : roundTo53 m < 2 ^ 1024 := by
  unfold roundTo53
  split
  · have : (2 : ℕ) ^ 53 ≤ 2 ^ 1024 := Nat.pow_le_pow_right (by norm_num) (by norm_num)
    omega
  · rename_i h53
    have hm0 : m ≠ 0 := by
      have : (0 : ℕ) < 2 ^ 53 := Nat.pos_pow_of_pos _ (by norm_num)
      omega
    rw [log2fuel_eq m m le_rfl]
    dsimp only
    have hlt : Nat.log2 m < 1024 := by
      rw [Nat.log2_lt hm0]
      calc m ≤ 2 ^ 1023 := hm
        _ < 2 ^ 1024 := Nat.pow_lt_pow_right (by norm_num) (by norm_num)
    set e := Nat.log2 m with he
    set k := e - 52 with hk
    have hkle : k ≤ 971 := by omega
    have hqk : m / 2 ^ k * 2 ^ k ≤ m := Nat.div_mul_le_self m _
    have hstep : (m / 2 ^ k + 1) * 2 ^ k ≤ m + 2 ^ k := by
      rw [Nat.add_mul, one_mul]
      omega
    have hk971 : (2 : ℕ) ^ k ≤ 2 ^ 971 := Nat.pow_le_pow_right (by norm_num) hkle
    have hbound : m + 2 ^ k < 2 ^ 1024 := by
      have h1 : (2 : ℕ) ^ 971 < 2 ^ 1023 := Nat.pow_lt_pow_right (by norm_num) (by norm_num)
      have h2 : (2 : ℕ) ^ 1023 + 2 ^ 1023 = 2 ^ 1024 := by ring
      omega
    split
    · omega
    · omega

/-! ### Characters of formatted numbers -/

/-- Every character pyStrInt emits is a minus sign or a digit. -/
theorem pyStrInt_chars (n : ℤ) : ∀ c ∈ (pyStrInt n).data, c = '-' ∨ c.isDigit = true := by
  unfold pyStrInt
  intro c hc
  have hdata : (⟨(if n < 0 then ['-'] else []) ++ natDigitsStr n.natAbs⟩ : String).data
      = (if n < 0 then ['-'] else []) ++ natDigitsStr n.natAbs := rfl
  rw [hdata, List.mem_append] at hc
  rcases hc with hc | hc
  · left
    split at hc
    · simpa using hc
    · simp at hc
  · right
    exact natDigitsStr_all_digit _ c hc

/-- pyStrInt is never the empty string. -/
theorem pyStrInt_ne_empty (n : ℤ) : pyStrInt n ≠ "" := by
  intro h
  have hdata : (pyStrInt n).data = (if n < 0 then ['-'] else []) ++ natDigitsStr n.natAbs := rfl
  rw [h] at hdata
  have := natDigitsStr_ne_nil n.natAbs
  rcases hif : (if n < 0 then ['-'] else [] : List Char) with _ | _
  · rw [hif] at hdata
    exact this hdata.symm
  · rw [hif] at hdata
    exact List.noConfusion hdata.symm

/-- A minus-or-digit character is none of the separator characters. -/
theorem clean_char {c : Char} (h : c = '-' ∨ c.isDigit = true) :
    c ≠ ' ' ∧ c ≠ '.' ∧ c ≠ '[' ∧ c ≠ '(' ∧ c ≠ ']' ∧ c ≠ ')' := by
  rcases h with rfl | hd
  · refine ⟨by decide, by decide, by decide, by decide, by decide, by decide⟩
  · refine ⟨?_, ?_, ?_, ?_, ?_, ?_⟩ <;>
      · intro he
        rw [he] at hd
        exact absurd hd (by decide)

/-- A successful format_number result is pyStrInt of some integer. -/
theorem format_number_ok (n : ℤ) (s1 : String) (h : format_number n = .ok s1) :
    ∃ v : ℤ, s1 = pyStrInt v := by
  unfold format_number at h
  rcases hf : pyFloatOfInt n with e | v
  · rw [hf] at h; exact absurd h (by simp [Except.map])
  · rw [hf] at h
    simp only [Except.map] at h
    injection h with h'
    exact ⟨v, h'.symm⟩

/-! ### Claim theorems -/

set_option maxRecDepth 40000

/-- C1: module initialisation of numbers.py does not succeed: the
module-level re.compile calls for flt_rgx and flt_sct_rgx receive the
pattern strings whose alternation (?:+?\d+|-[1-9]\d*) resp.
(?:+\d+|-[1-9]\d*) starts with a bare quantifier, which CPython rejects
with re.error("nothing to repeat"); every other pattern string compiled by
the module (all of which numbers.py compiles as ^(body)$) passes the same
check.  Hence the import of numbers.py raises and is_float, is_number,
to_number, format_number and everything in intervals.py (which imports
numbers.py) is unreachable. -/
theorem C1_numbers_import_raises :
    pyRegexCompileOk (pyPat flt_rgx_str) = false ∧
    pyRegexCompileOk (pyPat flt_sct_rgx_str) = false ∧
    ([flt_bsc_opl_rgx_str, flt_bsc_opt_rgx_str, flt_bsc_rgx_str, flt_bsc_rlx_rgx_str,
      flt_bsc_sct_rgx_str, flt_rlx_rgx_str, int_rgx_str, int_sct_rgx_str,
      num_bsc_opl_rgx_str, num_bsc_opt_rgx_str, num_bsc_rgx_str, num_bsc_rlx_rgx_str,
      num_bsc_sct_rgx_str, num_opl_rgx_str, num_opt_rgx_str, num_rgx_str,
      num_rlx_rgx_str, num_sct_rgx_str, sci_rgx_str, sci_rlx_rgx_str,
      sci_sct_rgx_str].all (fun p => pyRegexCompileOk (pyPat p))) = true := by
  decide

/-- C2: none of "1..2", "1 .. 2", "[1..2]" parses to the closed interval
[1, 2]; all three calls raise.  For "1..2" and "1 .. 2"
check_interval_str_match reads the wrong group indices (regex groups 5 and
6 instead of 4 and 5) and feeds None to to_number, a TypeError; for
"[1..2]" the check passes but to_interval unpacks the 6-tuple groups()
into 4 targets, a ValueError. -/
theorem C2_ambiguity_boundary_inputs_all_raise :
    to_interval "1..2" = .error .typeError ∧
    to_interval "1 .. 2" = .error .typeError ∧
    to_interval "[1..2]" = .error (.valueError "too many values to unpack (expected 4)") := by
  decide

/-- C4: to_interval never returns any interval at all (so in particular
never an unordered one), but the claimed error behaviour on "2 .. 1" is
wrong: that call raises TypeError (wrong group indices lead to
to_number(None)), not the unordered-bounds ValueError; the unordered-bounds
ValueError is reachable only on bracketed no-space inputs such as "[2..1]".
The ordered input "1 .. 2" also raises instead of succeeding. -/
theorem C4_ordering_invariant_and_misreported_error :
    (∀ s : String, (to_interval s).isOk = false) ∧
    check_interval_str_match "2 .. 1" = .error .typeError ∧
    check_interval_str_match "[2..1]" =
      .error (.valueError "Minimum value is greater than maximum value: [2..1]") ∧
    to_interval "1 .. 2" = .error .typeError :=
  ⟨to_interval_isOk_false, by decide, by decide, by decide⟩

/-- C5 counterexample: parsing "[-inf .. 5]" does not fail with an
unbounded-must-be-open error; it fails with the invalid-interval-format
ValueError, because the grammar of interval_rgx has no infinity literal
and the string never matches. -/
theorem C5_counterexample :
    check_interval_str_match "[-inf .. 5]" =
      .error (.valueError "Invalid interval format: [-inf .. 5]") := by
  decide

/-- C5 amended: no interval with an infinite bound is ever constructed
(the grammar has no infinity literal, so "[-inf .. 5]" is rejected as
malformed, and to_interval propagates exactly that error). -/
theorem C5_amended_no_infinite_bounds :
    (reFullmatch interval_rgx "[-inf .. 5]").isNone = true ∧
    to_interval "[-inf .. 5]" =
      .error (.valueError "Invalid interval format: [-inf .. 5]") := by
  decide

/-- C7: parsing "0x1A" does not yield 26 - to_number accepts only decimal
integers (int_rgx does not match "0x1A") and raises; formatting the
integer 26 does yield "26"; the non-decimal grammar exists only in the
draft module d_ints.py, whose INT_RGX accepts "0x1A". -/
theorem C7_hex_literal_rejected_by_live_to_number :
    (to_number "0x1A").isOk = false ∧
    int_rgx_match "0x1A" = false ∧
    format_number 26 = .ok "26" ∧
    int_rgx_dints_accept "0x1A" = true := by
  decide

/-- C8 counterexample: the live parser does not accept "inf" at all, and
the only special-value grammar in the repository (REAL_RGX of d_ints.py)
accepts the signed NaN "+nan", so signed NaN is not rejected. -/
theorem C8_counterexample :
    (to_number "inf").isOk = false ∧
    real_rgx_dints_accept "+nan" = true := by
  decide

/-- C8 amended: numbers.py to_number rejects every special value, while
the draft REAL_RGX of d_ints.py matches inf / infinity / nan
case-insensitively with an optional sign permitted uniformly - including
on nan, so "+nan" and "-nan" match as well. -/
theorem C8_amended_special_values :
    (to_number "inf").isOk = false ∧
    (to_number "infinity").isOk = false ∧
    (to_number "nan").isOk = false ∧
    real_rgx_dints_accept "inf" = true ∧
    real_rgx_dints_accept "INF" = true ∧
    real_rgx_dints_accept "Infinity" = true ∧
    real_rgx_dints_accept "infinity" = true ∧
    real_rgx_dints_accept "nan" = true ∧
    real_rgx_dints_accept "NaN" = true ∧
    real_rgx_dints_accept "-inf" = true ∧
    real_rgx_dints_accept "+inf" = true ∧
    real_rgx_dints_accept "-infinity" = true ∧
    real_rgx_dints_accept "+nan" = true ∧
    real_rgx_dints_accept "-nan" = true := by
  decide

/-- C3 counterexample: the value 10^19 + 1 is producible by to_number (from
its decimal literal), but format_number converts through float, which
rounds to the nearest double 10^19, so the formatted string parses back to
a different value. -/
theorem C3_counterexample :
    to_number "10000000000000000001" = .ok (10 ^ 19 + 1) ∧
    format_number (10 ^ 19 + 1) = .ok "10000000000000000000" ∧
    to_number "10000000000000000000" = .ok (10 ^ 19) ∧
    (10 ^ 19 : ℤ) ≠ 10 ^ 19 + 1 := by
  decide

/-- C10 counterexample: format_number is not total on parser-producible
values: the 310-digit decimal literal for 10^309 parses (int_rgx accepts
any digit string), and float(10^309) overflows the double range, so
format_number raises OverflowError. -/
theorem C10_counterexample :
    to_number ⟨'1' :: List.replicate 309 '0'⟩ = .ok (10 ^ 309) ∧
    format_number (10 ^ 309) = .error .overflowError := by
  decide

/-- C3 amended: the parse-format round trip does hold for every parsed
integer of magnitude below 2^53 (where the float conversion inside
format_number is exact): format_number prints the decimal string of the
value and to_number parses it back. -/
theorem C3_amended_roundtrip_small (n : ℤ) (h : n.natAbs < 2 ^ 53) :
    format_number n = .ok (pyStrInt n) ∧ to_number (pyStrInt n) = .ok n := by
  constructor
  · unfold format_number
    rw [pyFloatOfInt_small n h]
    rfl
  · unfold to_number
    rw [int_rgx_match_pyStrInt, if_pos rfl, pyParseInt_pyStrInt]

/-- Witness for C3 amended, at the concrete value -17. -/
theorem C3_amended_roundtrip_small_witness :
    ((-17 : ℤ).natAbs < 2 ^ 53) ∧
    format_number (-17) = .ok (pyStrInt (-17)) ∧
    to_number (pyStrInt (-17)) = .ok (-17) :=
  ⟨by decide, (C3_amended_roundtrip_small (-17) (by decide)).1,
    (C3_amended_roundtrip_small (-17) (by decide)).2⟩

/-- C10 amended: format_number does return a string for every parsed value
of magnitude up to 2^1023; it is only past the double range (from 2^1024
on, e.g. at the parsed 310-digit integer 10^309) that the float conversion
overflows and format_number raises. -/
theorem C10_amended_total_below_double_range (n : ℤ) (h : n.natAbs ≤ 2 ^ 1023) :
    (format_number n).isOk = true := by
  unfold format_number pyFloatOfInt
  have := roundTo53_lt h
  rw [if_neg (by omega)]
  rfl

/-- Witness for C10 amended, at the concrete value 5. -/
theorem C10_amended_total_below_double_range_witness :
    ((5 : ℤ).natAbs ≤ 2 ^ 1023) ∧ (format_number 5).isOk = true :=
  ⟨by decide, C10_amended_total_below_double_range 5 (by decide)⟩

/-- C6: whenever the live format_interval returns a string, that string is
the opening bracket dictated by left_open ('(' iff open, '[' iff closed),
then the formatted lower bound, one space, the two-dot ellipsis, one
space, the formatted upper bound, and the closing bracket dictated by
right_open (')' iff open, ']' iff closed); both bound strings are
nonempty and contain no space, dot or bracket characters, so both
brackets are always present and the ellipsis carries exactly one space on
each side. -/
theorem C6_format_interval_shape (iv : IntervalM) (s : String)
    (h : format_interval iv = .ok s) :
    ∃ s1 s2, format_number iv.start = .ok s1 ∧ format_number iv.endv = .ok s2 ∧
      s = (if iv.left_open then "(" else "[") ++ s1 ++ " .. " ++ s2 ++
          (if iv.right_open then ")" else "]") ∧
      s1 ≠ "" ∧ s2 ≠ "" ∧
      (∀ c ∈ s1.data ++ s2.data,
        c ≠ ' ' ∧ c ≠ '.' ∧ c ≠ '[' ∧ c ≠ '(' ∧ c ≠ ']' ∧ c ≠ ')') := by
  unfold format_interval at h
  rcases h1 : format_number iv.start with e | s1
  · rw [h1] at h; exact absurd h (by simp)
  · rw [h1] at h
    rcases h2 : format_number iv.endv with e | s2
    · rw [h2] at h; exact absurd h (by simp)
    · rw [h2] at h
      injection h with h'
      refine ⟨s1, s2, rfl, rfl, h'.symm, ?_, ?_, ?_⟩
      · obtain ⟨v, rfl⟩ := format_number_ok _ _ h1
        exact pyStrInt_ne_empty v
      · obtain ⟨v, rfl⟩ := format_number_ok _ _ h2
        exact pyStrInt_ne_empty v
      · intro c hc
        rw [List.mem_append] at hc
        rcases hc with hc | hc
        · obtain ⟨v, rfl⟩ := format_number_ok _ _ h1
          exact clean_char (pyStrInt_chars v c hc)
        · obtain ⟨v, rfl⟩ := format_number_ok _ _ h2
          exact clean_char (pyStrInt_chars v c hc)

/-- C9: any interval input containing three (or more) consecutive dots is
rejected, whatever whitespace surrounds them: interval_rgx never matches a
string containing three consecutive dots, so check_interval_str_match
raises the invalid-interval-format ValueError and to_interval fails. -/
theorem C9_three_dot_separator_always_rejected (s : String) (a b : List Char)
    (h : s.data = a ++ '.' :: '.' :: '.' :: b) :
    reFullmatch interval_rgx s = none ∧
    check_interval_str_match s = .error (.valueError ("Invalid interval format: " ++ s)) ∧
    (to_interval s).isOk = false := by
  have hnone : reFullmatch interval_rgx s = none := by
    rcases hm : reFullmatch interval_rgx s with _ | g
    · rfl
    · exfalso
      have hsome := scan_interval (reFullmatch_sound hm)
      rw [h, dotScan_append] at hsome
      rcases ha : dotScan 0 a with _ | d
      · rw [ha] at hsome
        exact Bool.noConfusion hsome
      · rw [ha, Option.some_bind, dotScan_three] at hsome
        exact Bool.noConfusion hsome
  refine ⟨hnone, ?_, to_interval_isOk_false s⟩
  unfold check_interval_str_match
  rw [hnone]

/-- Witness for C9, at the concrete input "1...2". -/
theorem C9_three_dot_separator_always_rejected_witness :
    ("1...2" : String).data = ['1'] ++ '.' :: '.' :: '.' :: ['2'] ∧
    (reFullmatch interval_rgx "1...2" = none ∧
      check_interval_str_match "1...2" =
        .error (.valueError ("Invalid interval format: " ++ "1...2")) ∧
      (to_interval "1...2").isOk = false) :=
  ⟨rfl, C9_three_dot_separator_always_rejected "1...2" ['1'] ['2'] rfl⟩

/-- Witness for C6, at the interval [1 .. 2). -/
theorem C6_format_interval_shape_witness :
    format_interval ⟨1, 2, false, true⟩ = .ok "[1 .. 2)" ∧
    (∃ s1 s2, format_number (IntervalM.mk 1 2 false true).start = .ok s1 ∧
      format_number (IntervalM.mk 1 2 false true).endv = .ok s2 ∧
      "[1 .. 2)" = (if (IntervalM.mk 1 2 false true).left_open then "(" else "[") ++ s1 ++
          " .. " ++ s2 ++
          (if (IntervalM.mk 1 2 false true).right_open then ")" else "]") ∧
      s1 ≠ "" ∧ s2 ≠ "" ∧
      (∀ c ∈ s1.data ++ s2.data,
        c ≠ ' ' ∧ c ≠ '.' ∧ c ≠ '[' ∧ c ≠ '(' ∧ c ≠ ']' ∧ c ≠ ')')) :=
  ⟨by decide, C6_format_interval_shape ⟨1, 2, false, true⟩ "[1 .. 2)" (by decide)⟩

end Drj
